import Mathlib

/-!
Shallow embedding of `crates/bevy_scene/src/serde.rs`: the serde serialization
and deserialization of `DynamicScene` (the `SceneSerializer` / `SceneDeserializer`
family), together with the interfaces it consumes from `bevy_reflect` and
`bevy_ecs` (type registry, reflect value codecs, entity ids).  Those consumed
interfaces are not part of the source under verification, so they are modelled
from the specification (marked `Modelled from the spec:` below); everything
else is translated from `serde.rs`.

Modelling conventions:
* wire data (the output of a serde `Serializer` / input of a `Deserializer`)
  is the inductive tree `Wire`: associations (`mapW`), sequences (`seqW`),
  strings and unsigned integers.  Structs with named fields are associations
  keyed by field-name strings, as in self-describing formats.
* a reflected value (`dyn PartialReflect`) is `Value`: its represented type
  info (`get_represented_type_info()`, which may be absent) plus an opaque
  payload standing for the data the per-type reflect codec reads/writes.
* fallible serde calls return `Except SerdeError`; the `unwrap` panic in
  `SceneMapSerializer::serialize` is modelled by `Option` (`none` = panic).
-/

deriving instance DecidableEq for Except

namespace BevyScene

/-- Name of the serialized scene struct type (`SCENE_STRUCT` in serde.rs). -/
def SCENE_STRUCT : String := "Scene"

/-- Name of the serialized resources field in a scene struct. -/
def SCENE_RESOURCES : String := "resources"

/-- Name of the serialized entities field in a scene struct. -/
def SCENE_ENTITIES : String := "entities"

/-- Name of the serialized entity struct type. -/
def ENTITY_STRUCT : String := "Entity"

/-- Name of the serialized component field in an entity struct. -/
def ENTITY_FIELD_COMPONENTS : String := "components"

/-- Modelled from the spec: the stable identity (`TypeId`) and type path of a
registered type, as exposed by `bevy_reflect`'s `TypeInfo` (not under src/).
The spec calls this the descriptor's "stable identity" plus "type name
(string, used as the wire-level discriminator)". -/
structure TypeInfo where
  typeId : Nat
  typePath : String
deriving DecidableEq

/-- Modelled from the spec: an Opaque Value (`Box<dyn PartialReflect>`,
bevy_reflect, not under src/): it can report its represented type info
(possibly absent) and carries an opaque payload that its own reflect codec
encodes and decodes. -/
structure Value where
  reprInfo : Option TypeInfo
  payload : Nat
deriving DecidableEq

/-- Modelled from the spec: a `TypeRegistration` (bevy_reflect, not under
src/): a TypeDescriptor with identity and name (`info`), the per-type decode
capability (`decodeOk d` tells whether payload `d` is well-formed for this
type), and the optional canonicalization hook (`ReflectFromReflect` type
data; `none` models a type that does not register the hook). -/
structure TypeRegistration where
  info : TypeInfo
  decodeOk : Nat → Bool
  fromReflect : Option (Value → Option Value)

/-- Modelled from the spec: the `TypeRegistry` (bevy_reflect, not under src/),
a catalog of registrations borrowed read-only for one operation. -/
abbrev TypeRegistry := List TypeRegistration

/-- Modelled from the spec: `TypeRegistry::get_with_type_path` — pure,
deterministic lookup of a registration by its type path. -/
def getWithTypePath (reg : TypeRegistry) (p : String) : Option TypeRegistration :=
  reg.find? (fun r => r.info.typePath == p)

/-- Modelled from the spec: `TypeRegistry::get` — lookup by type id. -/
def getById (reg : TypeRegistry) (tid : Nat) : Option TypeRegistration :=
  reg.find? (fun r => r.info.typeId == tid)

/-- Wire-level data read from / written to a serde format: associations,
sequences, strings and unsigned integers. -/
inductive Wire where
  | natW : Nat → Wire
  | strW : String → Wire
  | seqW : List Wire → Wire
  | mapW : List (Wire × Wire) → Wire

/-- Deserialization errors surfaced by the scene codecs.  `duplicateType`
stands for the `Error::custom` value built in `SceneMapVisitor::visit_map`
(its message names the offending type path); the field errors correspond to
serde's `duplicate_field` / `missing_field` / `unknown_field`, and
`invalidType` to serde's invalid-type errors. -/
inductive SerdeError where
  | unknownType : String → SerdeError
  | duplicateType : String → SerdeError
  | missingField : String → SerdeError
  | duplicateField : String → SerdeError
  | unknownField : String → SerdeError
  | valueDecode : String → SerdeError
  | invalidType : String → SerdeError
deriving DecidableEq

/-- Modelled from the spec: `TypedReflectSerializer` (bevy_reflect, not under
src/): the descriptor's per-instance encode capability writes the value's
opaque payload. -/
def typedReflectSerialize (v : Value) : Wire := .natW v.payload

/-- Modelled from the spec: `TypedReflectDeserializer` (bevy_reflect, not
under src/): decodes a value of the already-resolved type from the wire; the
type's own decode logic may reject the payload (`ValueDecodeError`). -/
def typedReflectDeserialize (r : TypeRegistration) : Wire → Except SerdeError Value
  | .natW d =>
    if r.decodeOk d then .ok ⟨some r.info, d⟩
    else .error (.valueDecode r.info.typePath)
  | _ => .error (.valueDecode r.info.typePath)

/-- Modelled from the spec: `TypeRegistrationDeserializer` (bevy_reflect, not
under src/): reads a map key as a type-path string and resolves it in the
registry; an unresolved name fails with an unknown-type error, before any
value is read. -/
def typeRegistrationDeserialize (reg : TypeRegistry) : Wire → Except SerdeError TypeRegistration
  | .strW p =>
    match getWithTypePath reg p with
    | some r => .ok r
    | none => .error (.unknownType p)
  | _ => .error (.invalidType "string type path")

/-- Modelled from the spec: the untyped `ReflectDeserializer` (bevy_reflect,
not under src/): a self-describing element is an association holding exactly
one entry from an embedded type tag to the value; the tag is resolved and the
typed decode applied.  It yields the raw decoded value (the canonicalization
hook of §4.7 is applied by the collection codec, not here). -/
def reflectDeserialize (reg : TypeRegistry) : Wire → Except SerdeError Value
  | .mapW [(k, w)] =>
    match typeRegistrationDeserialize reg k with
    | .error e => .error e
    | .ok r => typedReflectDeserialize r w
  | _ => .error (.invalidType "map containing exactly one entry")

/-- Modelled from the spec: the `Entity` / RecordKey codec (bevy_ecs, not
under src/): an opaque identifier serialized verbatim as an unsigned
integer and never interpreted by the scene codecs. -/
def entityDeserialize : Wire → Except SerdeError Nat
  | .natW id => .ok id
  | _ => .error (.invalidType "entity id")

/-- Modelled from the spec: a `DynamicEntity` (declared in the crate root,
outside serde.rs): one record key plus its components. -/
structure DynamicEntity where
  entity : Nat
  components : List Value
deriving DecidableEq

/-- Modelled from the spec: a `DynamicScene` (declared in the crate root,
outside serde.rs): the resources collection plus the entity records. -/
structure DynamicScene where
  resources : List Value
  entities : List DynamicEntity
deriving DecidableEq

/-- The `FromReflect` conversion attempt of `SceneMapVisitor::visit_map`
(serde.rs lines 494-501): look the resolved type id up in the registry, fetch
its `ReflectFromReflect` data if any, run `from_reflect` on the raw value,
and fall back to the raw value (`unwrap_or(value)`) when any step yields
nothing. -/
def applyFromReflect (reg : TypeRegistry) (tid : Nat) (v : Value) : Value :=
  ((((getById reg tid).bind (fun tr => tr.fromReflect)).bind (fun fr => fr v)).getD v)

/-- `SceneMapVisitor::visit_seq` (serde.rs lines 463-473): read
self-describing elements positionally until exhaustion, pushing each decoded
value; no duplicate check, no `FromReflect` conversion. -/
def sceneMapVisitSeq (reg : TypeRegistry) : List Wire → Except SerdeError (List Value)
  | [] => .ok []
  | w :: rest =>
    match reflectDeserialize reg w with
    | .error e => .error e
    | .ok v =>
      match sceneMapVisitSeq reg rest with
      | .error e => .error e
      | .ok vs => .ok (v :: vs)

/-- The loop of `SceneMapVisitor::visit_map` (serde.rs lines 475-507),
with the `added` set of already-seen type ids made explicit: resolve the key,
reject an already-seen type id with the duplicate-type error, decode the
value with the typed deserializer, apply the `FromReflect` conversion, and
push the result. -/
def sceneMapVisitMapGo (reg : TypeRegistry) (added : List Nat) :
    List (Wire × Wire) → Except SerdeError (List Value)
  | [] => .ok []
  | (k, w) :: rest =>
    match typeRegistrationDeserialize reg k with
    | .error e => .error e
    | .ok r =>
      if r.info.typeId ∈ added then .error (.duplicateType r.info.typePath)
      else
        match typedReflectDeserialize r w with
        | .error e => .error e
        | .ok raw =>
          match sceneMapVisitMapGo reg (r.info.typeId :: added) rest with
          | .error e => .error e
          | .ok vs => .ok (applyFromReflect reg r.info.typeId raw :: vs)

/-- `SceneMapVisitor::visit_map`, starting from an empty seen set. -/
def sceneMapVisitMap (reg : TypeRegistry) (entries : List (Wire × Wire)) :
    Except SerdeError (List Value) :=
  sceneMapVisitMapGo reg [] entries

/-- `SceneMapDeserializer::deserialize` (serde.rs lines 439-450): dispatches
the wire node to `SceneMapVisitor`, whose `visit_map` handles associative
input and `visit_seq` handles sequential self-describing input. -/
def sceneMapDeserialize (reg : TypeRegistry) : Wire → Except SerdeError (List Value)
  | .mapW entries => sceneMapVisitMap reg entries
  | .seqW items => sceneMapVisitSeq reg items
  | _ => .error (.invalidType "map of reflect types")

/-- The derived `EntityField` identifier (serde.rs lines 204-208). -/
inductive EntityField where
  | components
deriving DecidableEq

/-- Field-identifier parsing for `EntityField` (serde derive, accepting a
field-name string or a positional field index). -/
def entityFieldDeserialize : Wire → Except SerdeError EntityField
  | .strW s =>
    if s = ENTITY_FIELD_COMPONENTS then .ok .components else .error (.unknownField s)
  | .natW n => if n = 0 then .ok .components else .error (.invalidType "field index")
  | _ => .error (.invalidType "field identifier")

/-- The loop of `SceneEntityVisitor::visit_map` (serde.rs lines 404-430):
only the `components` field is recognized; a second occurrence fails with a
duplicate-field error before its value is read, and a missing field after the
full scan fails with a missing-field error. -/
def sceneEntityVisitMapGo (reg : TypeRegistry) (entity : Nat)
    (components : Option (List Value)) :
    List (Wire × Wire) → Except SerdeError DynamicEntity
  | [] =>
    match components with
    | some cs => .ok ⟨entity, cs⟩
    | none => .error (.missingField ENTITY_FIELD_COMPONENTS)
  | (k, w) :: rest =>
    match entityFieldDeserialize k with
    | .error e => .error e
    | .ok .components =>
      if components.isSome then .error (.duplicateField ENTITY_FIELD_COMPONENTS)
      else
        match sceneMapDeserialize reg w with
        | .error e => .error e
        | .ok cs => sceneEntityVisitMapGo reg entity (some cs) rest

/-- `SceneEntityVisitor::visit_seq` (serde.rs lines 388-402): the single
positional field is the components collection; an empty sequence is a
missing-field error. -/
def sceneEntityVisitSeq (reg : TypeRegistry) (entity : Nat) :
    List Wire → Except SerdeError DynamicEntity
  | [] => .error (.missingField ENTITY_FIELD_COMPONENTS)
  | w :: _ =>
    match sceneMapDeserialize reg w with
    | .error e => .error e
    | .ok cs => .ok ⟨entity, cs⟩

/-- `SceneEntityDeserializer::deserialize` (serde.rs lines 358-374): the
entity id is supplied externally by the enclosing entities map; the wire node
is dispatched to `SceneEntityVisitor`. -/
def sceneEntityDeserialize (reg : TypeRegistry) (entity : Nat) :
    Wire → Except SerdeError DynamicEntity
  | .mapW fields => sceneEntityVisitMapGo reg entity none fields
  | .seqW items => sceneEntityVisitSeq reg entity items
  | _ => .error (.invalidType "entities")

/-- The loop of `SceneEntitiesVisitor::visit_map` (serde.rs lines 333-347):
read one entity id key, decode one entity record with that id attached, and
push it; entries are kept in wire order and no duplicate-key check is
performed. -/
def sceneEntitiesVisitMap (reg : TypeRegistry) :
    List (Wire × Wire) → Except SerdeError (List DynamicEntity)
  | [] => .ok []
  | (k, w) :: rest =>
    match entityDeserialize k with
    | .error e => .error e
    | .ok id =>
      match sceneEntityDeserialize reg id w with
      | .error e => .error e
      | .ok ent =>
        match sceneEntitiesVisitMap reg rest with
        | .error e => .error e
        | .ok ents => .ok (ent :: ents)

/-- `SceneEntitiesDeserializer::deserialize` (serde.rs lines 309-320): only
an associative node is accepted (the visitor defines `visit_map` only). -/
def sceneEntitiesDeserialize (reg : TypeRegistry) : Wire → Except SerdeError (List DynamicEntity)
  | .mapW entries => sceneEntitiesVisitMap reg entries
  | _ => .error (.invalidType "map of entities")

/-- The derived `SceneField` identifier (serde.rs lines 197-202). -/
inductive SceneField where
  | resources
  | entities
deriving DecidableEq

/-- Field-identifier parsing for `SceneField` (serde derive, accepting a
field-name string or a positional field index). -/
def sceneFieldDeserialize : Wire → Except SerdeError SceneField
  | .strW s =>
    if s = SCENE_RESOURCES then .ok .resources
    else if s = SCENE_ENTITIES then .ok .entities
    else .error (.unknownField s)
  | .natW n =>
    if n = 0 then .ok .resources
    else if n = 1 then .ok .entities
    else .error (.invalidType "field index")
  | _ => .error (.invalidType "field identifier")

/-- The loop of `SceneVisitor::visit_map` (serde.rs lines 266-300): each of
the two recognized fields may occur at most once (a second occurrence is a
duplicate-field error raised before its value is read); after the full scan a
missing `resources` field is reported first, then a missing `entities`
field. -/
def sceneVisitMapGo (reg : TypeRegistry) (resources : Option (List Value))
    (entities : Option (List DynamicEntity)) :
    List (Wire × Wire) → Except SerdeError DynamicScene
  | [] =>
    match resources with
    | none => .error (.missingField SCENE_RESOURCES)
    | some res =>
      match entities with
      | none => .error (.missingField SCENE_ENTITIES)
      | some ents => .ok ⟨res, ents⟩
  | (k, w) :: rest =>
    match sceneFieldDeserialize k with
    | .error e => .error e
    | .ok .resources =>
      if resources.isSome then .error (.duplicateField SCENE_RESOURCES)
      else
        match sceneMapDeserialize reg w with
        | .error e => .error e
        | .ok res => sceneVisitMapGo reg (some res) entities rest
    | .ok .entities =>
      if entities.isSome then .error (.duplicateField SCENE_ENTITIES)
      else
        match sceneEntitiesDeserialize reg w with
        | .error e => .error e
        | .ok ents => sceneVisitMapGo reg resources (some ents) rest

/-- `SceneVisitor::visit_seq` (serde.rs lines 244-264): two positional
fields, `resources` then `entities`; a missing element is reported as the
corresponding missing-field error. -/
def sceneVisitSeq (reg : TypeRegistry) : List Wire → Except SerdeError DynamicScene
  | [] => .error (.missingField SCENE_RESOURCES)
  | w :: rest =>
    match sceneMapDeserialize reg w with
    | .error e => .error e
    | .ok res =>
      match rest with
      | [] => .error (.missingField SCENE_ENTITIES)
      | w2 :: _ =>
        match sceneEntitiesDeserialize reg w2 with
        | .error e => .error e
        | .ok ents => .ok ⟨res, ents⟩

/-- `SceneDeserializer::deserialize` (serde.rs lines 216-231): dispatches the
wire node to `SceneVisitor`. -/
def sceneDeserialize (reg : TypeRegistry) : Wire → Except SerdeError DynamicScene
  | .mapW fields => sceneVisitMapGo reg none none fields
  | .seqW items => sceneVisitSeq reg items
  | _ => .error (.invalidType "scene struct")

/-- The pair-collection pass of `SceneMapSerializer::serialize` (serde.rs
lines 172-182): for each entry in input order, take
`get_represented_type_info().unwrap().type_path()` and the entry itself;
`none` models the `unwrap` panic on an entry without represented type
info. -/
def collectPairs : List Value → Option (List (String × Nat))
  | [] => some []
  | v :: rest =>
    match v.reprInfo with
    | none => none
    | some i =>
      match collectPairs rest with
      | none => none
      | some ps => some ((i.typePath, v.payload) :: ps)

/-- Lexicographic comparison of character sequences by code point.  On valid
UTF-8 data this coincides with Rust's byte-wise `&str` ordering, since UTF-8
encoding preserves code-point order. -/
def charListLe : List Char → List Char → Bool
  | [], _ => true
  | _ :: _, [] => false
  | a :: as, b :: bs =>
    if a.toNat < b.toNat then true
    else if b.toNat < a.toNat then false
    else charListLe as bs

/-- The `&str` ordering used by `sort_by_key(|(type_path, _)| *type_path)`. -/
def pathLe (a b : String) : Bool := charListLe a.data b.data

/-- The key order of `sort_by_key(|(type_path, _)| *type_path)` as a binary
relation on the collected pairs. -/
def entryLe (a b : String × Nat) : Prop := pathLe a.1 b.1 = true

instance : DecidableRel entryLe := fun a b => instDecidableEqBool (pathLe a.1 b.1) true

/-- The sorting pass of `SceneMapSerializer::serialize` (serde.rs line 183):
a stable ascending sort of the (type path, value) pairs by type path, as
Rust's stable `sort_by_key` (insertion sort is stable, and all stable sorts
of the same key order produce the same output). -/
def sortEntries (l : List (String × Nat)) : List (String × Nat) :=
  l.insertionSort entryLe

/-- `SceneMapSerializer::serialize` (serde.rs lines 166-195): collect the
(type path, encoded value) pairs in input order — panicking (`none`) if an
entry lacks represented type info — sort them by type path, and emit them as
an association.  No duplicate check is performed.  The registry parameter
mirrors the `registry` field consumed by the per-value
`TypedReflectSerializer`, whose output is the opaque payload. -/
def sceneMapSerialize (_reg : TypeRegistry) (entries : List Value) :
    Option (List (String × Nat)) :=
  match collectPairs entries with
  | none => none
  | some ps => some (sortEntries ps)

/-- Renders a list of (type path, payload) entries as the associative wire
form consumed by `SceneMapVisitor::visit_map`. -/
def assocWire (pairs : List (String × Nat)) : Wire :=
  .mapW (pairs.map (fun e => (Wire.strW e.1, Wire.natW e.2)))

/-- Renders a serialized scene-map association as a wire node, each value
written by the typed reflect serializer. -/
def wireOfSceneMap (m : List (String × Nat)) : Wire :=
  assocWire m

/-- `EntitySerializer::serialize` (serde.rs lines 135-150): a one-field
struct holding the components collection. -/
def entitySerialize (reg : TypeRegistry) (e : DynamicEntity) : Option Wire :=
  match sceneMapSerialize reg e.components with
  | none => none
  | some m => some (.mapW [(.strW ENTITY_FIELD_COMPONENTS, wireOfSceneMap m)])

/-- The loop of `EntitiesSerializer::serialize` (serde.rs lines 108-125):
one entry per entity, keyed by its id, in the caller-supplied order. -/
def entitiesSerializeGo (reg : TypeRegistry) :
    List DynamicEntity → Option (List (Wire × Wire))
  | [] => some []
  | e :: rest =>
    match entitySerialize reg e with
    | none => none
    | some w =>
      match entitiesSerializeGo reg rest with
      | none => none
      | some ws => some ((Wire.natW e.entity, w) :: ws)

/-- `SceneSerializer::serialize` (serde.rs lines 76-98): a two-field struct,
`resources` then `entities`. -/
def sceneSerialize (reg : TypeRegistry) (s : DynamicScene) : Option Wire :=
  match sceneMapSerialize reg s.resources with
  | none => none
  | some res =>
    match entitiesSerializeGo reg s.entities with
    | none => none
    | some ents =>
      some (.mapW [(.strW SCENE_RESOURCES, wireOfSceneMap res),
                   (.strW SCENE_ENTITIES, .mapW ents)])

/-! Specification-level definitions used to state the properties. -/

/-- Renders entries as the sequential self-describing wire form consumed by
`SceneMapVisitor::visit_seq`: each element is a single-entry association
from its embedded type tag to its payload. -/
def seqSelfDescWire (pairs : List (String × Nat)) : Wire :=
  .seqW (pairs.map (fun e => Wire.mapW [(Wire.strW e.1, Wire.natW e.2)]))

/-- The (type path, payload) pair an entry contributes to the serialized
association (the `unwrap` made total with a default for the panic case). -/
def valuePair (v : Value) : String × Nat :=
  match v.reprInfo with
  | some i => (i.typePath, v.payload)
  | none => ("", v.payload)

/-- The type id reported by a value's represented type info, if any. -/
def valueTypeId (v : Value) : Option Nat := v.reprInfo.map (fun i => i.typeId)

/-- The registration id an associative key resolves to, if any. -/
def entryIdOf (reg : TypeRegistry) (e : String × Nat) : Option Nat :=
  (getWithTypePath reg e.1).map (fun r => r.info.typeId)

/-- Decoding of one associative entry up to (not including) the
canonicalization hook: resolve the key, then decode the payload with the
resolved type's codec. -/
def rawEntryDecode (reg : TypeRegistry) (e : String × Nat) : Option Value :=
  match getWithTypePath reg e.1 with
  | none => none
  | some r => if r.decodeOk e.2 then some ⟨some r.info, e.2⟩ else none

/-- Total version of `rawEntryDecode` (with a default for the failure case),
used to name the decoded value of an entry known to decode. -/
def rawTotal (reg : TypeRegistry) (e : String × Nat) : Value :=
  (rawEntryDecode reg e).getD ⟨none, 0⟩

/-- The canonicalization a raw decoded value undergoes on the associative
path: `applyFromReflect` at the type id its represented info reports. -/
def canonValue (reg : TypeRegistry) (v : Value) : Value :=
  match v.reprInfo with
  | some i => applyFromReflect reg i.typeId v
  | none => v

/-- A value is faithfully registered: it reports represented type info, the
registry resolves that type path to a registration carrying the same info,
the payload is accepted by the type's decode capability, and the
canonicalization hook (if any) preserves the value — the `FromReflect`
contract of spec §4.7. -/
def registeredValue (reg : TypeRegistry) (v : Value) : Bool :=
  match v.reprInfo with
  | none => false
  | some i =>
    match getWithTypePath reg i.typePath with
    | none => false
    | some r =>
      decide (r.info = i) && r.decodeOk v.payload &&
        decide (applyFromReflect reg i.typeId v = v)

/-! Concrete fixtures for witnesses and counterexamples. -/

/-- Fixture: type info of a type registered under path `A`. -/
def infoAW : TypeInfo := ⟨0, "A"⟩

/-- Fixture: type info of a type registered under path `B`. -/
def infoBW : TypeInfo := ⟨1, "B"⟩

/-- Fixture registry: types `A` and `B`, permissive decoders, no hooks. -/
def regW : TypeRegistry :=
  [⟨infoAW, fun _ => true, none⟩, ⟨infoBW, fun _ => true, none⟩]

/-- Fixture value of type `A` with payload 1. -/
def vA1W : Value := ⟨some infoAW, 1⟩

/-- Fixture value of type `A` with payload 2. -/
def vA2W : Value := ⟨some infoAW, 2⟩

/-- Fixture value of type `B` with payload 5. -/
def vBW : Value := ⟨some infoBW, 5⟩

/-- Fixture hook adding 100 to the payload (a value-changing conversion). -/
def hookFunW : Value → Option Value := fun v => some ⟨v.reprInfo, v.payload + 100⟩

/-- Fixture registry whose type `A` declares the value-changing hook. -/
def regHookW : TypeRegistry := [⟨infoAW, fun _ => true, some hookFunW⟩]

/-- Fixture registry whose type `A` declares an always-failing hook. -/
def regFailHookW : TypeRegistry := [⟨infoAW, fun _ => true, some (fun _ => none)⟩]

/-- Fixture scene: one resource, two entities sharing the entity id 7. -/
def sceneW : DynamicScene :=
  ⟨[vBW], [⟨7, [vA1W, vBW]⟩, ⟨7, [vA2W]⟩]⟩

/-! Basic lemmas about the decoders. -/

lemma reflectDeserialize_raw (reg : TypeRegistry) (p : String) (d : Nat) (v : Value)
    (h : rawEntryDecode reg (p, d) = some v) :
    reflectDeserialize reg (.mapW [(.strW p, .natW d)]) = .ok v := by
  simp only [rawEntryDecode] at h
  cases hg : getWithTypePath reg p with
  | none => simp [hg] at h
  | some r =>
    simp only [hg] at h
    cases hd : r.decodeOk d with
    | false => simp [hd] at h
    | true =>
      rw [if_pos hd] at h
      injection h with h
      subst h
      simp [reflectDeserialize, typeRegistrationDeserialize, typedReflectDeserialize, hg, hd]

lemma sceneMapVisitSeq_ok (reg : TypeRegistry) {pairs : List (String × Nat)}
    {raws : List Value}
    (h : List.Forall₂ (fun e v => rawEntryDecode reg e = some v) pairs raws) :
    sceneMapVisitSeq reg (pairs.map (fun e => Wire.mapW [(Wire.strW e.1, Wire.natW e.2)])) =
      .ok raws := by
  induction h with
  | nil => rfl
  | @cons e v l1 l2 h1 h2 ih =>
    have he : reflectDeserialize reg (.mapW [(.strW e.1, .natW e.2)]) = .ok v :=
      reflectDeserialize_raw reg e.1 e.2 v (by rw [Prod.mk.eta]; exact h1)
    simp [sceneMapVisitSeq, he, ih]

/-! Claim theorems. -/

/-- Claim C5: during associative decode of a uniquely-typed collection, a key
whose type path has no registry entry fails immediately with the unknown-type
error naming that path, for every possible value wire (the value is never
read, not even checked for well-formedness) and at every position in the
collection (arbitrary seen-set and remaining entries); the error is the final
result of the decode, never retried or defaulted. -/
theorem unknown_type_fails_before_value (reg : TypeRegistry) (p : String)
    (hp : getWithTypePath reg p = none) (v : Wire) (rest : List (Wire × Wire))
    (added : List Nat) :
    sceneMapVisitMapGo reg added ((Wire.strW p, v) :: rest) =
      .error (.unknownType p) := by
  simp [sceneMapVisitMapGo, typeRegistrationDeserialize, hp]

/-- Witness for claim C5, at a concrete registry with a value wire that no
registered type could decode. -/
theorem unknown_type_fails_before_value_witness :
    sceneMapVisitMapGo regW [] [(Wire.strW "C", Wire.strW "garbage")] =
      .error (.unknownType "C") :=
  unknown_type_fails_before_value regW "C" (by rfl) _ _ _

/-- Claim C2 counterexample: a collection with two entries of the same type,
presented sequentially, decodes successfully — `visit_seq` performs no
duplicate check — while the same entries presented associatively fail with
the duplicate-type error.  The claim asserts failure on both paths. -/
theorem seq_path_accepts_duplicate_types :
    sceneMapDeserialize regW (seqSelfDescWire [("A", 1), ("A", 2)]) =
      .ok [⟨some infoAW, 1⟩, ⟨some infoAW, 2⟩] ∧
    sceneMapDeserialize regW (assocWire [("A", 1), ("A", 2)]) =
      .error (.duplicateType "A") :=
  ⟨by decide, by decide⟩

/-- Claim C2 (amended): on the associative path, an entry resolving to an
already-seen type identity fails with the duplicate-type error naming the
offending type path (its value is never read); the sequential path performs
no duplicate check and decodes every well-formed entry. -/
theorem duplicate_type_error_on_assoc_path_only (reg : TypeRegistry) (p : String)
    (r : TypeRegistration) (v : Wire) (rest : List (Wire × Wire)) (added : List Nat)
    (hres : getWithTypePath reg p = some r) (hdup : r.info.typeId ∈ added) :
    sceneMapVisitMapGo reg added ((Wire.strW p, v) :: rest) =
      .error (.duplicateType r.info.typePath) ∧
    ∀ (pairs : List (String × Nat)) (raws : List Value),
      List.Forall₂ (fun e w => rawEntryDecode reg e = some w) pairs raws →
      sceneMapDeserialize reg (seqSelfDescWire pairs) = .ok raws := by
  constructor
  · simp [sceneMapVisitMapGo, typeRegistrationDeserialize, hres, hdup]
  · intro pairs raws h
    simpa [sceneMapDeserialize, seqSelfDescWire] using sceneMapVisitSeq_ok reg h

/-- Witness for claim C2 (amended), at a concrete registry. -/
theorem duplicate_type_error_on_assoc_path_only_witness :
    sceneMapVisitMapGo regW [0] [(Wire.strW "A", Wire.natW 9)] =
      .error (.duplicateType "A") ∧
    sceneMapDeserialize regW (seqSelfDescWire [("A", 1), ("B", 2)]) =
      .ok [⟨some infoAW, 1⟩, ⟨some infoBW, 2⟩] := by
  have h := duplicate_type_error_on_assoc_path_only regW "A"
    ⟨infoAW, fun _ => true, none⟩ (Wire.natW 9) [] [0] (by rfl) (by decide)
  exact ⟨h.1, h.2 [("A", 1), ("B", 2)] [⟨some infoAW, 1⟩, ⟨some infoBW, 2⟩]
    (List.Forall₂.cons (by decide) (List.Forall₂.cons (by decide) List.Forall₂.nil))⟩

/-- Claim C7: after the raw decode of an associative entry, if the resolved
type has a `FromReflect` hook and it succeeds, its output replaces the raw
value in the result; if the hook is absent or fails (the whole lookup chain
yields nothing), the raw decoded value is kept unchanged — and in both cases
the decode continues exactly as before, so canonicalization failure never
aborts the decode. -/
theorem from_reflect_canonicalization_fallback (reg : TypeRegistry) (p : String)
    (r : TypeRegistration) (d : Nat) (rest : List (Wire × Wire)) (added : List Nat)
    (hres : getWithTypePath reg p = some r) (hnd : r.info.typeId ∉ added)
    (hdec : r.decodeOk d = true) :
    (∀ tr fr w, getById reg r.info.typeId = some tr → tr.fromReflect = some fr →
      fr ⟨some r.info, d⟩ = some w →
      sceneMapVisitMapGo reg added ((Wire.strW p, Wire.natW d) :: rest) =
        (sceneMapVisitMapGo reg (r.info.typeId :: added) rest).map (fun vs => w :: vs)) ∧
    ((((getById reg r.info.typeId).bind (fun tr => tr.fromReflect)).bind
        (fun fr => fr ⟨some r.info, d⟩)) = none →
      sceneMapVisitMapGo reg added ((Wire.strW p, Wire.natW d) :: rest) =
        (sceneMapVisitMapGo reg (r.info.typeId :: added) rest).map
          (fun vs => (⟨some r.info, d⟩ : Value) :: vs)) := by
  have hstep : sceneMapVisitMapGo reg added ((Wire.strW p, Wire.natW d) :: rest) =
      match sceneMapVisitMapGo reg (r.info.typeId :: added) rest with
      | .error e => .error e
      | .ok vs => .ok (applyFromReflect reg r.info.typeId ⟨some r.info, d⟩ :: vs) := by
    simp [sceneMapVisitMapGo, typeRegistrationDeserialize, typedReflectDeserialize,
      hres, hnd, hdec]
  constructor
  · intro tr fr w h1 h2 h3
    have hv : applyFromReflect reg r.info.typeId (⟨some r.info, d⟩ : Value) = w := by
      simp [applyFromReflect, h1, h2, h3]
    rw [hstep, hv]
    cases sceneMapVisitMapGo reg (r.info.typeId :: added) rest <;> simp [Except.map]
  · intro hnone
    have hv : applyFromReflect reg r.info.typeId (⟨some r.info, d⟩ : Value) =
        (⟨some r.info, d⟩ : Value) := by
      simp [applyFromReflect, hnone]
    rw [hstep, hv]
    cases sceneMapVisitMapGo reg (r.info.typeId :: added) rest <;> simp [Except.map]

/-- Witness for claim C7: a successful hook replaces the value, an
always-failing hook falls back to the raw value while the decode still
succeeds. -/
theorem from_reflect_canonicalization_fallback_witness :
    sceneMapVisitMapGo regHookW [] [(Wire.strW "A", Wire.natW 1)] =
      .ok [⟨some infoAW, 101⟩] ∧
    sceneMapVisitMapGo regFailHookW [] [(Wire.strW "A", Wire.natW 1)] =
      .ok [⟨some infoAW, 1⟩] := by
  constructor
  · have h := (from_reflect_canonicalization_fallback regHookW "A"
      ⟨infoAW, fun _ => true, some hookFunW⟩ 1 [] [] (by rfl) (by decide) (by rfl)).1
      ⟨infoAW, fun _ => true, some hookFunW⟩ hookFunW ⟨some infoAW, 101⟩
      (by rfl) (by rfl) (by rfl)
    exact h.trans (by decide)
  · have h := (from_reflect_canonicalization_fallback regFailHookW "A"
      ⟨infoAW, fun _ => true, some (fun _ => none)⟩ 1 [] [] (by rfl) (by decide) (by rfl)).2
      (by rfl)
    exact h.trans (by decide)

lemma collectPairs_eq (vs : List Value) (h : ∀ v ∈ vs, v.reprInfo.isSome) :
    collectPairs vs = some (vs.map valuePair) := by
  induction vs with
  | nil => rfl
  | cons v rest ih =>
    have hv := h v (List.mem_cons_self v rest)
    cases hvr : v.reprInfo with
    | none => rw [hvr] at hv; exact absurd hv (by simp)
    | some i =>
      have hrest := ih (fun x hx => h x (List.mem_cons_of_mem v hx))
      simp [collectPairs, hvr, hrest, valuePair]

lemma collectPairs_none (vs : List Value) (v : Value) (hv : v ∈ vs)
    (h : v.reprInfo = none) : collectPairs vs = none := by
  induction vs with
  | nil => cases hv
  | cons a rest ih =>
    rcases List.mem_cons.mp hv with h1 | h2
    · subst h1; simp [collectPairs, h]
    · cases ha : a.reprInfo <;> simp [collectPairs, ha, ih h2]

/-- Claim C9: `SceneMapSerializer::serialize` succeeds exactly when every
entry reports represented type info; an entry whose
`get_represented_type_info()` is absent makes the whole serialization panic
(the `unwrap`, modelled by `none`) instead of returning a serde error. -/
theorem serialize_requires_represented_type_info (reg : TypeRegistry)
    (entries : List Value) :
    (sceneMapSerialize reg entries).isSome ↔ ∀ v ∈ entries, v.reprInfo.isSome := by
  constructor
  · intro h v hv
    by_contra hn
    have hnone : v.reprInfo = none := Option.not_isSome_iff_eq_none.mp hn
    simp [sceneMapSerialize, collectPairs_none entries v hv hnone] at h
  · intro h
    simp [sceneMapSerialize, collectPairs_eq entries h]

/-- Claim C10: decoding an entities map preserves the wire order of entries,
and every occurrence — including entries repeating an already-seen entity id —
is appended as its own `DynamicEntity` (the output has exactly one element
per wire entry, in order; nothing is rejected or overwritten). -/
theorem entities_decode_preserves_order_and_duplicates (reg : TypeRegistry)
    (entries : List (Wire × Wire)) (es : List DynamicEntity)
    (h : List.Forall₂ (fun kv e => ∃ id, entityDeserialize kv.1 = .ok id ∧
        sceneEntityDeserialize reg id kv.2 = .ok e) entries es) :
    sceneEntitiesDeserialize reg (.mapW entries) = .ok es ∧
    es.length = entries.length := by
  constructor
  · show sceneEntitiesVisitMap reg entries = .ok es
    induction h with
    | nil => rfl
    | @cons kv e l1 l2 h1 h2 ih =>
      obtain ⟨id, hid, he⟩ := h1
      simp [sceneEntitiesVisitMap, hid, he, ih]
  · exact h.length_eq.symm

/-- Witness for claim C10: two wire entries with the same entity id decode to
two separate entities, in wire order. -/
theorem entities_decode_preserves_order_and_duplicates_witness :
    sceneEntitiesDeserialize regW (.mapW
        [(Wire.natW 7, Wire.mapW [(Wire.strW "components", assocWire [("A", 1)])]),
         (Wire.natW 7, Wire.mapW [(Wire.strW "components", assocWire [("A", 2)])])]) =
      .ok [⟨7, [⟨some infoAW, 1⟩]⟩, ⟨7, [⟨some infoAW, 2⟩]⟩] ∧
    ([⟨7, [⟨some infoAW, 1⟩]⟩, ⟨7, [⟨some infoAW, 2⟩]⟩] : List DynamicEntity).length =
      [(Wire.natW 7, Wire.mapW [(Wire.strW "components", assocWire [("A", 1)])]),
       (Wire.natW 7, Wire.mapW [(Wire.strW "components", assocWire [("A", 2)])])].length :=
  entities_decode_preserves_order_and_duplicates regW
    [(Wire.natW 7, Wire.mapW [(Wire.strW "components", assocWire [("A", 1)])]),
     (Wire.natW 7, Wire.mapW [(Wire.strW "components", assocWire [("A", 2)])])]
    [⟨7, [⟨some infoAW, 1⟩]⟩, ⟨7, [⟨some infoAW, 2⟩]⟩]
    (List.Forall₂.cons ⟨7, rfl, by decide⟩
      (List.Forall₂.cons ⟨7, rfl, by decide⟩ List.Forall₂.nil))

/-- Claim C6: in the named-field form of the Scene and Entity objects, each
required field must occur exactly once: with zero occurrences the full object
scan ends in the corresponding missing-field error, and a second occurrence
raises the corresponding duplicate-field error (before the second value is
even read, for arbitrary trailing entries). -/
theorem required_field_occurrence_checks (reg : TypeRegistry)
    (rv rv2 ev ev2 cv cv2 : Wire) (rest1 rest2 rest3 : List (Wire × Wire))
    (rs cs : List Value) (es : List DynamicEntity) (id : Nat)
    (hr : sceneMapDeserialize reg rv = .ok rs)
    (he : sceneEntitiesDeserialize reg ev = .ok es)
    (hc : sceneMapDeserialize reg cv = .ok cs) :
    sceneDeserialize reg (.mapW [(.strW SCENE_ENTITIES, ev)]) =
      .error (.missingField SCENE_RESOURCES) ∧
    sceneDeserialize reg (.mapW [(.strW SCENE_RESOURCES, rv)]) =
      .error (.missingField SCENE_ENTITIES) ∧
    sceneDeserialize reg (.mapW ((.strW SCENE_RESOURCES, rv) ::
        (.strW SCENE_RESOURCES, rv2) :: rest1)) =
      .error (.duplicateField SCENE_RESOURCES) ∧
    sceneDeserialize reg (.mapW ((.strW SCENE_ENTITIES, ev) ::
        (.strW SCENE_ENTITIES, ev2) :: rest2)) =
      .error (.duplicateField SCENE_ENTITIES) ∧
    sceneEntityDeserialize reg id (.mapW []) =
      .error (.missingField ENTITY_FIELD_COMPONENTS) ∧
    sceneEntityDeserialize reg id (.mapW ((.strW ENTITY_FIELD_COMPONENTS, cv) ::
        (.strW ENTITY_FIELD_COMPONENTS, cv2) :: rest3)) =
      .error (.duplicateField ENTITY_FIELD_COMPONENTS) := by
  refine ⟨?_, ?_, ?_, ?_, ?_, ?_⟩ <;>
    simp [sceneDeserialize, sceneVisitMapGo, sceneFieldDeserialize,
      sceneEntityDeserialize, sceneEntityVisitMapGo, entityFieldDeserialize,
      hr, he, hc, SCENE_RESOURCES, SCENE_ENTITIES, ENTITY_FIELD_COMPONENTS]

/-- Witness for claim C6 at concrete well-formed field values. -/
theorem required_field_occurrence_checks_witness :
    sceneDeserialize regW (.mapW [(.strW SCENE_ENTITIES, Wire.mapW [])]) =
      .error (.missingField SCENE_RESOURCES) ∧
    sceneDeserialize regW (.mapW [(.strW SCENE_RESOURCES, Wire.mapW [])]) =
      .error (.missingField SCENE_ENTITIES) ∧
    sceneDeserialize regW (.mapW [(.strW SCENE_RESOURCES, Wire.mapW []),
        (.strW SCENE_RESOURCES, Wire.strW "junk")]) =
      .error (.duplicateField SCENE_RESOURCES) ∧
    sceneDeserialize regW (.mapW [(.strW SCENE_ENTITIES, Wire.mapW []),
        (.strW SCENE_ENTITIES, Wire.strW "junk")]) =
      .error (.duplicateField SCENE_ENTITIES) ∧
    sceneEntityDeserialize regW 3 (.mapW []) =
      .error (.missingField ENTITY_FIELD_COMPONENTS) ∧
    sceneEntityDeserialize regW 3 (.mapW [(.strW ENTITY_FIELD_COMPONENTS, Wire.mapW []),
        (.strW ENTITY_FIELD_COMPONENTS, Wire.strW "junk")]) =
      .error (.duplicateField ENTITY_FIELD_COMPONENTS) :=
  required_field_occurrence_checks regW (Wire.mapW []) (Wire.strW "junk")
    (Wire.mapW []) (Wire.strW "junk") (Wire.mapW []) (Wire.strW "junk") [] [] []
    [] [] [] 3 (by rfl) (by rfl) (by rfl)

/-! Order lemmas for the sort key. -/

lemma charListLe_cons_iff (x y : Char) (xs ys : List Char) :
    charListLe (x :: xs) (y :: ys) = true ↔
      (x.toNat < y.toNat ∨ (x.toNat = y.toNat ∧ charListLe xs ys = true)) := by
  by_cases h1 : x.toNat < y.toNat <;> by_cases h2 : y.toNat < x.toNat
  · simp [charListLe, h1, h2]
  · simp [charListLe, h1, h2]
  · have hne : ¬ x.toNat = y.toNat := by omega
    simp [charListLe, h1, h2, hne]
  · have heq : x.toNat = y.toNat := by omega
    simp [charListLe, h1, h2, heq]

lemma charListLe_total : ∀ as bs : List Char,
    charListLe as bs = true ∨ charListLe bs as = true
  | [], _ => Or.inl rfl
  | _ :: _, [] => Or.inr rfl
  | a :: as, b :: bs => by
    rcases Nat.lt_trichotomy a.toNat b.toNat with h | h | h
    · exact Or.inl ((charListLe_cons_iff a b as bs).mpr (Or.inl h))
    · rcases charListLe_total as bs with ht | ht
      · exact Or.inl ((charListLe_cons_iff a b as bs).mpr (Or.inr ⟨h, ht⟩))
      · exact Or.inr ((charListLe_cons_iff b a bs as).mpr (Or.inr ⟨h.symm, ht⟩))
    · exact Or.inr ((charListLe_cons_iff b a bs as).mpr (Or.inl h))

lemma charListLe_trans : ∀ as bs cs : List Char, charListLe as bs = true →
    charListLe bs cs = true → charListLe as cs = true
  | [], _, _, _, _ => rfl
  | _ :: _, [], _, h1, _ => by simp [charListLe] at h1
  | _ :: _, _ :: _, [], _, h2 => by simp [charListLe] at h2
  | a :: as, b :: bs, c :: cs, h1, h2 => by
    rw [charListLe_cons_iff] at h1 h2 ⊢
    rcases h1 with h1 | ⟨e1, r1⟩ <;> rcases h2 with h2 | ⟨e2, r2⟩
    · exact Or.inl (by omega)
    · exact Or.inl (by omega)
    · exact Or.inl (by omega)
    · exact Or.inr ⟨by omega, charListLe_trans as bs cs r1 r2⟩

lemma charListLe_antisymm : ∀ as bs : List Char, charListLe as bs = true →
    charListLe bs as = true → as = bs
  | [], [], _, _ => rfl
  | [], _ :: _, _, h2 => by simp [charListLe] at h2
  | _ :: _, [], h1, _ => by simp [charListLe] at h1
  | a :: as, b :: bs, h1, h2 => by
    rw [charListLe_cons_iff] at h1 h2
    have heq : a.toNat = b.toNat := by
      rcases h1 with h | ⟨e, _⟩ <;> rcases h2 with h' | ⟨e', _⟩ <;> omega
    have r1 : charListLe as bs = true := by
      rcases h1 with h | ⟨_, r⟩
      · omega
      · exact r
    have r2 : charListLe bs as = true := by
      rcases h2 with h | ⟨_, r⟩
      · omega
      · exact r
    have htail : as = bs := charListLe_antisymm as bs r1 r2
    have hhead : a = b := by
      apply Char.eq_of_val_eq
      exact UInt32.toNat.inj heq
    rw [hhead, htail]

lemma pathLe_total (a b : String) : pathLe a b = true ∨ pathLe b a = true :=
  charListLe_total a.data b.data

lemma pathLe_trans (a b c : String) (h1 : pathLe a b = true) (h2 : pathLe b c = true) :
    pathLe a c = true :=
  charListLe_trans a.data b.data c.data h1 h2

lemma pathLe_antisymm (a b : String) (h1 : pathLe a b = true) (h2 : pathLe b a = true) :
    a = b := by
  have h := charListLe_antisymm a.data b.data h1 h2
  cases a; cases b; simp_all

lemma sortEntries_perm (l : List (String × Nat)) : (sortEntries l).Perm l :=
  List.perm_insertionSort entryLe l

lemma sortEntries_sorted (l : List (String × Nat)) :
    (sortEntries l).Pairwise entryLe := by
  haveI : IsTotal (String × Nat) entryLe := ⟨fun a b => pathLe_total a.1 b.1⟩
  haveI : IsTrans (String × Nat) entryLe := ⟨fun a b c => pathLe_trans a.1 b.1 c.1⟩
  exact List.sorted_insertionSort entryLe l

lemma sorted_strict_of_nodup_keys {l : List (String × Nat)}
    (hs : l.Pairwise entryLe) (hn : (l.map Prod.fst).Nodup) :
    l.Pairwise (fun a b => entryLe a b ∧ a.1 ≠ b.1) :=
  (hs.and (List.pairwise_map.mp hn))

lemma eq_of_perm_of_sorted_strict {l1 l2 : List (String × Nat)}
    (hp : l1.Perm l2)
    (h1 : l1.Pairwise (fun a b => entryLe a b ∧ a.1 ≠ b.1))
    (h2 : l2.Pairwise (fun a b => entryLe a b ∧ a.1 ≠ b.1)) : l1 = l2 := by
  haveI : IsAntisymm (String × Nat) (fun a b => entryLe a b ∧ a.1 ≠ b.1) :=
    ⟨fun a b ha hb => absurd (pathLe_antisymm a.1 b.1 ha.1 hb.1) ha.2⟩
  exact List.eq_of_perm_of_sorted hp h1 h2

/-- Claim C8: encoding performs no duplicate-type check — whenever every
entry carries represented type info, `SceneMapSerializer` succeeds and emits
one (type path, value) pair per entry (duplicated type names included), the
output being a permutation of the collected pairs. -/
theorem encode_never_rejects_duplicates (reg : TypeRegistry) (entries : List Value)
    (h : ∀ v ∈ entries, v.reprInfo.isSome) :
    ∃ out, sceneMapSerialize reg entries = some out ∧
      out.length = entries.length ∧ out.Perm (entries.map valuePair) := by
  refine ⟨sortEntries (entries.map valuePair), ?_, ?_, sortEntries_perm _⟩
  · simp [sceneMapSerialize, collectPairs_eq entries h]
  · exact ((sortEntries_perm _).length_eq).trans (List.length_map _ _)

/-- Witness for claim C8: a collection with two entries of the same type
encodes successfully, emitting both. -/
theorem encode_never_rejects_duplicates_witness :
    ∃ out, sceneMapSerialize regW [vA1W, vA2W] = some out ∧
      out.length = ([vA1W, vA2W] : List Value).length ∧
      out.Perm ([vA1W, vA2W].map valuePair) :=
  encode_never_rejects_duplicates regW [vA1W, vA2W] (by decide)

/-- Claim C4 counterexample: two multiset-equal entry lists that share a type
path produce different outputs depending on insertion order — the stable sort
preserves the relative order of equal keys, so insertion-order independence
fails once duplicate type paths are allowed (which the encoder does allow,
claim C8). -/
theorem encode_depends_on_insertion_order_with_duplicate_paths :
    ([vA1W, vA2W] : List Value).Perm [vA2W, vA1W] ∧
    sceneMapSerialize regW [vA1W, vA2W] = some [("A", 1), ("A", 2)] ∧
    sceneMapSerialize regW [vA2W, vA1W] = some [("A", 2), ("A", 1)] ∧
    sceneMapSerialize regW [vA1W, vA2W] ≠ sceneMapSerialize regW [vA2W, vA1W] :=
  ⟨by decide, by decide, by decide, by decide⟩

/-- Claim C4 (amended): restricted to entry lists whose type paths are
pairwise distinct — the `UniquelyTypedCollection` invariant — encoding is
insertion-order independent: any two multiset-equal lists produce the
identical pair sequence, and that sequence is strictly ascending in the
type-path order. -/
theorem encode_sorted_and_insertion_order_independent (reg : TypeRegistry)
    (l1 l2 : List Value) (hperm : l1.Perm l2)
    (hinfo : ∀ v ∈ l1, v.reprInfo.isSome)
    (hkeys : (l1.map (fun v => (valuePair v).1)).Nodup) :
    sceneMapSerialize reg l1 = sceneMapSerialize reg l2 ∧
    ∀ out, sceneMapSerialize reg l1 = some out →
      out.Pairwise (fun a b => entryLe a b ∧ a.1 ≠ b.1) := by
  have hinfo2 : ∀ v ∈ l2, v.reprInfo.isSome := fun v hv =>
    hinfo v (hperm.mem_iff.mpr hv)
  have hp : (l1.map valuePair).Perm (l2.map valuePair) := hperm.map valuePair
  have hk1 : ((l1.map valuePair).map Prod.fst).Nodup := by
    rw [List.map_map]; exact hkeys
  have hk1s : ((sortEntries (l1.map valuePair)).map Prod.fst).Nodup :=
    (((sortEntries_perm (l1.map valuePair)).map Prod.fst).symm).nodup hk1
  have hk2 : ((l2.map valuePair).map Prod.fst).Nodup :=
    ((hp.map Prod.fst)).nodup (by rw [List.map_map]; exact hkeys)
  have hk2s : ((sortEntries (l2.map valuePair)).map Prod.fst).Nodup :=
    (((sortEntries_perm (l2.map valuePair)).map Prod.fst).symm).nodup hk2
  have hs1 := sorted_strict_of_nodup_keys (sortEntries_sorted (l1.map valuePair)) hk1s
  have hs2 := sorted_strict_of_nodup_keys (sortEntries_sorted (l2.map valuePair)) hk2s
  have hsp : (sortEntries (l1.map valuePair)).Perm (sortEntries (l2.map valuePair)) :=
    ((sortEntries_perm _).trans hp).trans (sortEntries_perm _).symm
  have heq : sortEntries (l1.map valuePair) = sortEntries (l2.map valuePair) :=
    eq_of_perm_of_sorted_strict hsp hs1 hs2
  constructor
  · simp [sceneMapSerialize, collectPairs_eq l1 hinfo, collectPairs_eq l2 hinfo2, heq]
  · intro out hout
    rw [sceneMapSerialize, collectPairs_eq l1 hinfo] at hout
    injection hout with hout
    rw [← hout]
    exact hs1

/-- Witness for claim C4 (amended): two orderings of `A`- and `B`-typed
values encode identically and sorted. -/
theorem encode_sorted_and_insertion_order_independent_witness :
    sceneMapSerialize regW [vBW, vA1W] = sceneMapSerialize regW [vA1W, vBW] ∧
    ∀ out, sceneMapSerialize regW [vBW, vA1W] = some out →
      out.Pairwise (fun a b => entryLe a b ∧ a.1 ≠ b.1) :=
  encode_sorted_and_insertion_order_independent regW [vBW, vA1W] [vA1W, vBW]
    (by decide) (by decide) (by decide)

/-! The generic success lemma for the associative decode path. -/

lemma rawEntryDecode_elim (reg : TypeRegistry) (e : String × Nat) (v : Value)
    (h : rawEntryDecode reg e = some v) :
    ∃ r, getWithTypePath reg e.1 = some r ∧ r.decodeOk e.2 = true ∧
      v = ⟨some r.info, e.2⟩ := by
  simp only [rawEntryDecode] at h
  cases hg : getWithTypePath reg e.1 with
  | none => simp [hg] at h
  | some r =>
    simp only [hg] at h
    cases hd : r.decodeOk e.2 with
    | false => simp [hd] at h
    | true =>
      rw [if_pos hd] at h
      injection h with h
      exact ⟨r, rfl, hd, h.symm⟩

lemma sceneMapVisitMapGo_ok (reg : TypeRegistry) {pairs : List (String × Nat)}
    {raws : List Value}
    (h : List.Forall₂ (fun e v => rawEntryDecode reg e = some v) pairs raws) :
    ∀ (added : List Nat), (pairs.map (entryIdOf reg)).Nodup →
    (∀ e ∈ pairs, ∀ i, entryIdOf reg e = some i → i ∉ added) →
    sceneMapVisitMapGo reg added (pairs.map (fun e => (Wire.strW e.1, Wire.natW e.2))) =
      .ok (raws.map (canonValue reg)) := by
  induction h with
  | nil => intro added _ _; rfl
  | @cons e v l1 l2 h1 h2 ih =>
    intro added hnd hdisj
    obtain ⟨r, hg, hd, hv⟩ := rawEntryDecode_elim reg e v h1
    have hid : entryIdOf reg e = some r.info.typeId := by simp [entryIdOf, hg]
    have hnotin : r.info.typeId ∉ added :=
      hdisj e (List.mem_cons_self e l1) r.info.typeId hid
    have hndc : (entryIdOf reg e) ∉ l1.map (entryIdOf reg) ∧
        (l1.map (entryIdOf reg)).Nodup := by
      rw [List.map_cons] at hnd; exact List.nodup_cons.mp hnd
    have hdisj' : ∀ e' ∈ l1, ∀ i, entryIdOf reg e' = some i →
        i ∉ (r.info.typeId :: added) := by
      intro e' he' i hi
      rw [List.mem_cons]
      rintro (rfl | hmem)
      · exact hndc.1 (by rw [← hid] at hi; rw [← hi]; exact List.mem_map_of_mem _ he')
      · exact hdisj e' (List.mem_cons_of_mem e he') i hi hmem
    have hrec := ih (r.info.typeId :: added) hndc.2 hdisj'
    have hcanon : applyFromReflect reg r.info.typeId v = canonValue reg v := by
      rw [hv]; simp [canonValue]
    simp [sceneMapVisitMapGo, typeRegistrationDeserialize, typedReflectDeserialize,
      hg, hd, hnotin, hrec, ← hv, hcanon]

/-- Claim C3 counterexample: the associative and sequential presentations of
the same entry sequence (two entries tagged with the same type) decode to
different results — an error on the associative path, success on the
sequential path — so the two entry points are not equivalent on all
semantically-equal inputs. -/
theorem visit_paths_disagree_on_duplicates :
    sceneMapDeserialize regW (assocWire [("B", 3), ("B", 4)]) =
      .error (.duplicateType "B") ∧
    sceneMapDeserialize regW (seqSelfDescWire [("B", 3), ("B", 4)]) =
      .ok [⟨some infoBW, 3⟩, ⟨some infoBW, 4⟩] :=
  ⟨by decide, by decide⟩

/-- Claim C3 (amended): on entry sequences free of duplicate type identities
(and whose entries all resolve and decode), the sequential path yields the
raw decoded values in wire order and the associative path yields the same
sequence with the canonicalization hook applied elementwise; in particular
the two entry points coincide whenever canonicalization fixes every decoded
value (for example when no resolved type declares a hook). -/
theorem visit_paths_agree_up_to_canonicalization (reg : TypeRegistry)
    (pairs : List (String × Nat)) (raws : List Value)
    (h : List.Forall₂ (fun e v => rawEntryDecode reg e = some v) pairs raws)
    (hnd : (pairs.map (entryIdOf reg)).Nodup) :
    sceneMapDeserialize reg (seqSelfDescWire pairs) = .ok raws ∧
    sceneMapDeserialize reg (assocWire pairs) = .ok (raws.map (canonValue reg)) ∧
    ((∀ v ∈ raws, canonValue reg v = v) →
      sceneMapDeserialize reg (assocWire pairs) =
        sceneMapDeserialize reg (seqSelfDescWire pairs)) := by
  have hseq : sceneMapDeserialize reg (seqSelfDescWire pairs) = .ok raws := by
    simpa [sceneMapDeserialize, seqSelfDescWire] using sceneMapVisitSeq_ok reg h
  have hmap : sceneMapDeserialize reg (assocWire pairs) =
      .ok (raws.map (canonValue reg)) := by
    simpa [sceneMapDeserialize, sceneMapVisitMap, assocWire] using
      sceneMapVisitMapGo_ok reg h [] hnd (by intro e he i hi; simp)
  refine ⟨hseq, hmap, fun hcv => ?_⟩
  rw [hseq, hmap]
  have : raws.map (canonValue reg) = raws := by
    have := List.map_congr_left hcv
    simpa using this
  rw [this]

/-- Witness for claim C3 (amended), at a hook-free registry where the two
paths coincide. -/
theorem visit_paths_agree_up_to_canonicalization_witness :
    sceneMapDeserialize regW (seqSelfDescWire [("A", 1), ("B", 2)]) =
      .ok [⟨some infoAW, 1⟩, ⟨some infoBW, 2⟩] ∧
    sceneMapDeserialize regW (assocWire [("A", 1), ("B", 2)]) =
      .ok ([⟨some infoAW, 1⟩, ⟨some infoBW, 2⟩].map (canonValue regW)) ∧
    ((∀ v ∈ ([⟨some infoAW, 1⟩, ⟨some infoBW, 2⟩] : List Value),
        canonValue regW v = v) →
      sceneMapDeserialize regW (assocWire [("A", 1), ("B", 2)]) =
        sceneMapDeserialize regW (seqSelfDescWire [("A", 1), ("B", 2)])) :=
  visit_paths_agree_up_to_canonicalization regW [("A", 1), ("B", 2)]
    [⟨some infoAW, 1⟩, ⟨some infoBW, 2⟩]
    (List.Forall₂.cons (by decide) (List.Forall₂.cons (by decide) List.Forall₂.nil))
    (by decide)

/-! Round-trip: serialization followed by deserialization. -/

lemma registeredValue_spec (reg : TypeRegistry) (v : Value)
    (h : registeredValue reg v = true) :
    rawEntryDecode reg (valuePair v) = some v ∧ canonValue reg v = v ∧
    entryIdOf reg (valuePair v) = valueTypeId v ∧ v.reprInfo.isSome := by
  obtain ⟨vr, vp⟩ := v
  simp only [registeredValue] at h
  cases hvr : vr with
  | none => rw [hvr] at h; simp at h
  | some i =>
    subst hvr
    simp only at h
    cases hg : getWithTypePath reg i.typePath with
    | none => simp [hg] at h
    | some r =>
      simp only [hg, Bool.and_eq_true, decide_eq_true_eq] at h
      obtain ⟨⟨hri, hdk⟩, hcv⟩ := h
      subst hri
      refine ⟨?_, ?_, ?_, rfl⟩
      · simp [rawEntryDecode, valuePair, hg, hdk]
      · simpa [canonValue] using hcv
      · simp [entryIdOf, valuePair, valueTypeId, hg]

lemma forall₂_map_right {α β : Type} (R : α → β → Prop) (f : α → β) :
    ∀ (l : List α), (∀ x ∈ l, R x (f x)) → List.Forall₂ R l (l.map f)
  | [], _ => List.Forall₂.nil
  | x :: xs, h =>
    List.Forall₂.cons (h x (List.mem_cons_self x xs))
      (forall₂_map_right R f xs (fun y hy => h y (List.mem_cons_of_mem x hy)))

lemma sceneMap_roundtrip (reg : TypeRegistry) (vs : List Value)
    (h1 : ∀ v ∈ vs, registeredValue reg v = true)
    (h2 : (vs.map valueTypeId).Nodup) :
    ∃ m out, sceneMapSerialize reg vs = some m ∧
      sceneMapDeserialize reg (wireOfSceneMap m) = .ok out ∧ out.Perm vs := by
  have hinfo : ∀ v ∈ vs, v.reprInfo.isSome := fun v hv =>
    (registeredValue_spec reg v (h1 v hv)).2.2.2
  have hser : sceneMapSerialize reg vs = some (sortEntries (vs.map valuePair)) := by
    simp [sceneMapSerialize, collectPairs_eq vs hinfo]
  have hmem : ∀ e ∈ sortEntries (vs.map valuePair),
      rawEntryDecode reg e = some (rawTotal reg e) := by
    intro e he
    have he2 : e ∈ vs.map valuePair := (sortEntries_perm _).mem_iff.mp he
    obtain ⟨v, hv, rfl⟩ := List.mem_map.mp he2
    have hd := (registeredValue_spec reg v (h1 v hv)).1
    simp [rawTotal, hd]
  have hfa : List.Forall₂ (fun e v => rawEntryDecode reg e = some v)
      (sortEntries (vs.map valuePair))
      ((sortEntries (vs.map valuePair)).map (rawTotal reg)) :=
    forall₂_map_right _ _ _ hmem
  have hids : ((vs.map valuePair).map (entryIdOf reg)) = vs.map valueTypeId := by
    rw [List.map_map]
    exact List.map_congr_left (fun v hv => (registeredValue_spec reg v (h1 v hv)).2.2.1)
  have hnd : ((sortEntries (vs.map valuePair)).map (entryIdOf reg)).Nodup := by
    apply (((sortEntries_perm (vs.map valuePair)).map (entryIdOf reg)).symm).nodup
    rw [hids]; exact h2
  have hdec := sceneMapVisitMapGo_ok reg hfa [] hnd (by intro e he i hi; simp)
  refine ⟨sortEntries (vs.map valuePair),
    ((sortEntries (vs.map valuePair)).map (rawTotal reg)).map (canonValue reg),
    hser, ?_, ?_⟩
  · simpa [sceneMapDeserialize, wireOfSceneMap, assocWire, sceneMapVisitMap] using hdec
  · have hback : ∀ v ∈ vs, canonValue reg (rawTotal reg (valuePair v)) = v := by
      intro v hv
      have hspec := registeredValue_spec reg v (h1 v hv)
      have : rawTotal reg (valuePair v) = v := by simp [rawTotal, hspec.1]
      rw [this]; exact hspec.2.1
    rw [List.map_map]
    have p1 := (sortEntries_perm (vs.map valuePair)).map (canonValue reg ∘ rawTotal reg)
    have e2 : (vs.map valuePair).map (canonValue reg ∘ rawTotal reg) = vs := by
      rw [List.map_map]
      have h3 := List.map_congr_left (fun v hv => hback v hv)
      simpa using h3
    exact p1.trans (by rw [e2])

lemma entity_roundtrip (reg : TypeRegistry) (e : DynamicEntity)
    (h1 : ∀ v ∈ e.components, registeredValue reg v = true)
    (h2 : (e.components.map valueTypeId).Nodup) :
    ∃ w out, entitySerialize reg e = some w ∧
      sceneEntityDeserialize reg e.entity w = .ok out ∧
      out.entity = e.entity ∧ out.components.Perm e.components := by
  obtain ⟨m, cs, hm, hd, hp⟩ := sceneMap_roundtrip reg e.components h1 h2
  refine ⟨.mapW [(.strW ENTITY_FIELD_COMPONENTS, wireOfSceneMap m)],
    ⟨e.entity, cs⟩, ?_, ?_, rfl, hp⟩
  · simp [entitySerialize, hm]
  · simp [sceneEntityDeserialize, sceneEntityVisitMapGo, entityFieldDeserialize, hd]

lemma entities_roundtrip (reg : TypeRegistry) (es : List DynamicEntity)
    (h : ∀ e ∈ es, (∀ v ∈ e.components, registeredValue reg v = true) ∧
        (e.components.map valueTypeId).Nodup) :
    ∃ ws outs, entitiesSerializeGo reg es = some ws ∧
      sceneEntitiesVisitMap reg ws = .ok outs ∧
      List.Forall₂ (fun o e => o.entity = e.entity ∧ o.components.Perm e.components)
        outs es := by
  induction es with
  | nil => exact ⟨[], [], rfl, rfl, List.Forall₂.nil⟩
  | cons e rest ih =>
    obtain ⟨ws, outs, hws, hdec, hfa⟩ := ih (fun x hx => h x (List.mem_cons_of_mem e hx))
    obtain ⟨w, out, hw, hde, hoe, hop⟩ := entity_roundtrip reg e
      (h e (List.mem_cons_self e rest)).1 (h e (List.mem_cons_self e rest)).2
    refine ⟨(Wire.natW e.entity, w) :: ws, out :: outs, ?_, ?_,
      List.Forall₂.cons ⟨hoe, hop⟩ hfa⟩
    · simp [entitiesSerializeGo, hw, hws]
    · have hde2 : sceneEntityDeserialize reg e.entity w = .ok out := hde
      simp [sceneEntitiesVisitMap, entityDeserialize, hde2, hdec]

/-- Claim C1: for a Scene all of whose resources and components are
faithfully registered (matching registration, decodable payload,
value-preserving canonicalization hook — the `FromReflect` contract) and
satisfy the uniquely-typed-collection invariant, serializing with
`SceneSerializer` and deserializing the output with `SceneDeserializer` over
the same registry succeeds and yields a `DynamicScene` element-wise equal to
the original: entities correspond one-to-one in order with equal entity ids,
and each components collection — like the resources collection — is a
permutation of the original (equality of the value multiset, i.e. matching
by type identity with equal values). -/
theorem scene_roundtrip (reg : TypeRegistry) (s : DynamicScene)
    (hres : ∀ v ∈ s.resources, registeredValue reg v = true)
    (hresU : (s.resources.map valueTypeId).Nodup)
    (hent : ∀ e ∈ s.entities, (∀ v ∈ e.components, registeredValue reg v = true) ∧
        (e.components.map valueTypeId).Nodup) :
    ∃ w out, sceneSerialize reg s = some w ∧ sceneDeserialize reg w = .ok out ∧
      out.resources.Perm s.resources ∧
      List.Forall₂ (fun o e => o.entity = e.entity ∧ o.components.Perm e.components)
        out.entities s.entities := by
  obtain ⟨m, res, hm, hdres, hpres⟩ := sceneMap_roundtrip reg s.resources hres hresU
  obtain ⟨ws, outs, hws, hdents, hfa⟩ := entities_roundtrip reg s.entities hent
  refine ⟨.mapW [(.strW SCENE_RESOURCES, wireOfSceneMap m),
      (.strW SCENE_ENTITIES, .mapW ws)], ⟨res, outs⟩, ?_, ?_, hpres, hfa⟩
  · simp [sceneSerialize, hm, hws]
  · simp [sceneDeserialize, sceneVisitMapGo, sceneFieldDeserialize, hdres, hdents,
      sceneEntitiesDeserialize, SCENE_RESOURCES, SCENE_ENTITIES]

/-- Witness for claim C1: a concrete scene (one resource, two entities that
even share an entity id) round-trips. -/
theorem scene_roundtrip_witness :
    ∃ w out, sceneSerialize regW sceneW = some w ∧
      sceneDeserialize regW w = .ok out ∧
      out.resources.Perm sceneW.resources ∧
      List.Forall₂ (fun o e => o.entity = e.entity ∧ o.components.Perm e.components)
        out.entities sceneW.entities :=
  scene_roundtrip regW sceneW (by decide) (by decide) (by decide)

end BevyScene

